import Mathlib

/-!
Dashboard-App: membership editor and member table.

A shallow embedding of `src/components/UserModal.jsx` and
`src/components/UserTable.jsx`.

* `JsDate` holds the part of the ECMAScript `Date` object the two components
  use: the day and year arithmetic of the language standard (`Day`,
  `DayFromYear`, `YearFromTime`, `MonthFromTime`, `DateFromTime`, `MakeDay`),
  `setHours(0, 0, 0, 0)`, `getMonth`, `setMonth`, `toISOString`, and the
  date-only form of `Date.parse`.  Time values are integers, in milliseconds
  since 1970-01-01T00:00:00Z.  The local time zone is a pair of functions
  (`JsEnv.tza`, `JsEnv.tzaLocal`): the offset from UTC in force at a time
  value, and the offset in force at a local time, so a zone may change its
  offset during the year.  The standard confines time values to 8.64e15 ms on
  either side of the epoch; a clock never comes near that limit and the limit
  is left out.
* `UserModal` holds the component state (six draft fields and the form error),
  its two effects, `resetForm` and `handleSubmit`.  One run of an effect or a
  handler reads the clock once: every `new Date()` of the run is the same
  instant `now`.
* `UserTable` holds the row mapping of the table body.
-/

namespace JsDate

/-- Milliseconds in a day. -/
def msPerDay : Int := 86400000

/-- Day number of a time value: `Day(t) = floor(t / msPerDay)`. -/
def day (t : Int) : Int := t / msPerDay

/-- Milliseconds since the start of the day: `TimeWithinDay(t) = t modulo msPerDay`. -/
def timeWithinDay (t : Int) : Int := t % msPerDay

/-- Number of days of year `y`: `DaysInYear(y)`. -/
def daysInYear (y : Int) : Int :=
  if y % 4 ≠ 0 then 365
  else if y % 100 ≠ 0 then 366
  else if y % 400 ≠ 0 then 365
  else 366

/-- Day number of the first day of year `y`: `DayFromYear(y)`. -/
def dayFromYear (y : Int) : Int :=
  365 * (y - 1970) + (y - 1969) / 4 - (y - 1901) / 100 + (y - 1601) / 400

/-- Year that contains day number `d`: the largest `y` with `dayFromYear y ≤ d`
(`YearFromTime`), found from the mean year length and one adjustment. -/
def yearFromDay (d : Int) : Int :=
  let y := 1970 + (400 * d) / 146097
  if d < dayFromYear y then y - 1
  else if dayFromYear (y + 1) ≤ d then y + 1
  else y

/-- Leap flag of year `y`, 1 for a leap year and 0 otherwise: `InLeapYear`. -/
def leapOfYear (y : Int) : Int := if daysInYear y = 366 then 1 else 0

/-- Position of day number `d` inside its year: `DayWithinYear`. -/
def dayWithinYear (d : Int) : Int := d - dayFromYear (yearFromDay d)

/-- Month (0 to 11) that holds position `n` of a year with leap flag `l`:
the table of `MonthFromTime`. -/
def monthOfYearDay (n l : Int) : Int :=
  if n < 31 then 0
  else if n < 59 + l then 1
  else if n < 90 + l then 2
  else if n < 120 + l then 3
  else if n < 151 + l then 4
  else if n < 181 + l then 5
  else if n < 212 + l then 6
  else if n < 243 + l then 7
  else if n < 273 + l then 8
  else if n < 304 + l then 9
  else if n < 334 + l then 10
  else 11

/-- Position in the year of the first day of month `mn` (0 to 11), leap flag `l`. -/
def monthStart (mn l : Int) : Int :=
  if mn = 0 then 0
  else if mn = 1 then 31
  else if mn = 2 then 59 + l
  else if mn = 3 then 90 + l
  else if mn = 4 then 120 + l
  else if mn = 5 then 151 + l
  else if mn = 6 then 181 + l
  else if mn = 7 then 212 + l
  else if mn = 8 then 243 + l
  else if mn = 9 then 273 + l
  else if mn = 10 then 304 + l
  else 334 + l

/-- Number of days of month `mn` (0 to 11) in a year with leap flag `l`. -/
def daysInMonth (mn l : Int) : Int :=
  if mn = 1 then 28 + l
  else if mn = 3 ∨ mn = 5 ∨ mn = 8 ∨ mn = 10 then 30
  else 31

/-- Month (0 to 11) of day number `d`: `MonthFromTime`. -/
def monthFromDay (d : Int) : Int :=
  monthOfYearDay (dayWithinYear d) (leapOfYear (yearFromDay d))

/-- Day of the month (1 to 31) of day number `d`: `DateFromTime`. -/
def dateFromDay (d : Int) : Int :=
  dayWithinYear d - monthStart (monthFromDay d) (leapOfYear (yearFromDay d)) + 1

/-- Day number of the given year, month (any integer, months past 11 carry
into the following years) and day of the month (any integer, days past the
end of the month carry into the following months): `MakeDay`. -/
def makeDay (year month date : Int) : Int :=
  let ym := year + month / 12
  let mn := month % 12
  dayFromYear ym + monthStart mn (leapOfYear ym) + date - 1

/-- The host environment of the script.  `tza t` is the offset of local time from UTC, in
milliseconds, in force at the time value `t` (`LocalTZA(t, true)`), and `tzaLocal t` the
offset in force at the local time `t` (`LocalTZA(t, false)`); no offset is more than a day.
`legacyParse` is what `Date.parse` makes of a string that is not a calendar date in the
form `YYYY-MM-DD` (other standard forms, and whatever forms the implementation accepts on
top; `none` is the time value NaN). -/
structure JsEnv where
  tza : Int → Int
  tzaLocal : Int → Int
  legacyParse : String → Option Int
  tza_bound : ∀ t, -msPerDay ≤ tza t ∧ tza t ≤ msPerDay
  tzaLocal_bound : ∀ t, -msPerDay ≤ tzaLocal t ∧ tzaLocal t ≤ msPerDay

/-- Local time of a time value: `LocalTime(t)`. -/
def localTime (env : JsEnv) (t : Int) : Int := t + env.tza t

/-- Time value of a local time: `UTC(t)`. -/
def utc (env : JsEnv) (t : Int) : Int := t - env.tzaLocal t

/-- Method `setHours(0, 0, 0, 0)`: the start of the local day that holds `t`. -/
def setHours0 (env : JsEnv) (t : Int) : Int :=
  utc env (day (localTime env t) * msPerDay + 0)

/-- Method `getMonth()`: the month (0 to 11) of `t` in local time. -/
def getMonth (env : JsEnv) (t : Int) : Int :=
  monthFromDay (day (localTime env t))

/-- Method `setMonth(month)`: the month of `t` is replaced in local time; year, day
of the month and time of day are kept and `makeDay` carries what overflows. -/
def setMonth (env : JsEnv) (t : Int) (month : Int) : Int :=
  let lt := localTime env t
  let newDay := makeDay (yearFromDay (day lt)) month (dateFromDay (day lt))
  utc env (newDay * msPerDay + timeWithinDay lt)

/-- Character of a decimal digit. -/
def digitChar (n : Nat) : Char := Char.ofNat (48 + n % 10)

/-- Value of a decimal digit character. -/
def digitVal (c : Char) : Option Nat :=
  if 48 ≤ c.toNat ∧ c.toNat ≤ 57 then some (c.toNat - 48) else none

/-- Two decimal digits of `n`. -/
def pad2 (n : Nat) : List Char := [digitChar (n / 10), digitChar n]

/-- Three decimal digits of `n`. -/
def pad3 (n : Nat) : List Char := [digitChar (n / 100), digitChar (n / 10), digitChar n]

/-- Four decimal digits of `n`. -/
def pad4 (n : Nat) : List Char :=
  [digitChar (n / 1000), digitChar (n / 100), digitChar (n / 10), digitChar n]

/-- Six decimal digits of `n`. -/
def pad6 (n : Nat) : List Char :=
  [digitChar (n / 100000), digitChar (n / 10000), digitChar (n / 1000),
   digitChar (n / 100), digitChar (n / 10), digitChar n]

/-- Year of an ISO string: four digits for the years 0 to 9999, a sign and six
digits for the others. -/
def yearChars (y : Int) : List Char :=
  if 0 ≤ y ∧ y ≤ 9999 then pad4 y.toNat
  else if y < 0 then '-' :: pad6 (-y).toNat
  else '+' :: pad6 y.toNat

/-- Calendar date `YYYY-MM-DD` of year `y`, month `m` (1 to 12), day `d`. -/
def isoDateChars (y m d : Int) : List Char :=
  yearChars y ++ '-' :: (pad2 m.toNat ++ '-' :: pad2 d.toNat)

/-- Time of day `HH:mm:ss.sss` of `ms` milliseconds since the start of the day. -/
def isoTimeChars (ms : Int) : List Char :=
  pad2 (ms / 3600000).toNat ++ ':' :: (pad2 (ms / 60000 % 60).toNat ++
    ':' :: (pad2 (ms / 1000 % 60).toNat ++ '.' :: pad3 (ms % 1000).toNat))

/-- Method `toISOString()`: date and time of `t` in UTC, `YYYY-MM-DDTHH:mm:ss.sssZ`. -/
def toISOString (t : Int) : String :=
  String.mk (isoDateChars (yearFromDay (day t)) (monthFromDay (day t) + 1) (dateFromDay (day t))
    ++ 'T' :: (isoTimeChars (timeWithinDay t) ++ ['Z']))

/-- Expression `s.split("T")[0]`: the part of `s` before its first `T`, all of `s`
when it has none. -/
def splitT0 (s : String) : String :=
  String.mk (s.data.takeWhile fun c => c ≠ 'T')

/-- Number written by two digit characters. -/
def num2 (a b : Char) : Option Int := do
  let x ← digitVal a
  let y ← digitVal b
  pure ((10 * x + y : Nat) : Int)

/-- Number written by four digit characters. -/
def num4 (a b c d : Char) : Option Int := do
  let x ← digitVal a
  let y ← digitVal b
  let z ← digitVal c
  let w ← digitVal d
  pure ((1000 * x + 100 * y + 10 * z + w : Nat) : Int)

/-- Year, month (1 to 12) and day of a string of the shape `YYYY-MM-DD`. -/
def readDateOnly (cs : List Char) : Option (Int × Int × Int) :=
  match cs with
  | [y0, y1, y2, y3, s0, m0, m1, s1, d0, d1] =>
    if s0 = '-' ∧ s1 = '-' then do
      let y ← num4 y0 y1 y2 y3
      let m ← num2 m0 m1
      let d ← num2 d0 d1
      pure (y, m, d)
    else none
  | _ => none

/-- Function `Date.parse`, the time value of `new Date(s)` for a string `s`: a
calendar date `YYYY-MM-DD` is midnight UTC of that date; every other string is
left to `JsEnv.legacyParse`. -/
def dateParse (env : JsEnv) (s : String) : Option Int :=
  match readDateOnly s.data with
  | some (y, m, d) =>
    if 1 ≤ m ∧ m ≤ 12 ∧ 1 ≤ d ∧ d ≤ daysInMonth (m - 1) (leapOfYear y) then
      some (makeDay y (m - 1) d * msPerDay)
    else env.legacyParse s
  | none => env.legacyParse s

/-- Comparison `a <= b` of two dates, false when either is an invalid date. -/
def dateLE (a b : Option Int) : Bool :=
  match a, b with
  | some x, some y => decide (x ≤ y)
  | _, _ => false

/-- Calendar date of `t` in UTC: year, month (1 to 12) and day of the month, the three
numbers `toISOString` prints. -/
def utcDate (t : Int) : Int × Int × Int :=
  (yearFromDay (day t), monthFromDay (day t) + 1, dateFromDay (day t))

/-- Calendar date of `t` in local time. -/
def localDate (env : JsEnv) (t : Int) : Int × Int × Int := utcDate (localTime env t)

/-- String `YYYY-MM-DD` of a calendar date. -/
def isoDate (c : Int × Int × Int) : String := String.mk (isoDateChars c.1 c.2.1 c.2.2)

/-- The same day of the month in the month after, for a calendar date with month 1 to 12:
the reading of "plus one calendar month" in the specification. -/
def sameDayNextMonth (c : Int × Int × Int) : Int × Int × Int :=
  if c.2.1 = 12 then (c.1 + 1, 1, c.2.2) else (c.1, c.2.1 + 1, c.2.2)

/-- Number of days of the local month of `t`. -/
def monthLength (env : JsEnv) (t : Int) : Int :=
  daysInMonth (getMonth env t) (leapOfYear (yearFromDay (day (localTime env t))))

/-- The local time one local month length after the local time of `t`: same time of day,
same day of the month in the following month, or, when the following month is shorter, as
many days past its end. -/
def nextMonthLocal (env : JsEnv) (t : Int) : Int :=
  localTime env t + monthLength env t * msPerDay

/-- The calendar date that lies `d - 1` days after the first day of the month following the
month of the calendar date `c` (month 1 to 12): the same day of the month in the following
month when that month has it, and otherwise as many days into the month after. -/
def carryNextMonth (c : Int × Int × Int) : Int × Int × Int :=
  utcDate (makeDay c.1 c.2.1 c.2.2 * msPerDay)

/-- A zone with the same offset `c` from UTC at all times. -/
def fixedZone (c : Int) (h : -msPerDay ≤ c ∧ c ≤ msPerDay) ( legacy : String → Option Int) :
    JsEnv :=
  { tza := fun _ => c, tzaLocal := fun _ => c, legacyParse := legacy,
    tza_bound := fun _ => h, tzaLocal_bound := fun _ => h }

/-- A host in the UTC zone whose `Date.parse` knows calendar dates only. -/
def utcEnv : JsEnv := fixedZone 0 (by decide) (fun _ => none)

/-- A host five hours west of UTC at all times (the zone `Etc/GMT+5`) whose `Date.parse`
knows calendar dates only. -/
def westEnv : JsEnv := fixedZone (-18000000) (by decide) (fun _ => none)

/-- A host on central European time in the year 2024: one hour east of UTC, and two hours
from 2024-03-31T01:00Z to 2024-10-27T01:00Z (local 03:00 to local 03:00). -/
def berlinEnv : JsEnv :=
  { tza := fun t => if 1711846800000 ≤ t ∧ t < 1729990800000 then 7200000 else 3600000,
    tzaLocal := fun t => if 1711854000000 ≤ t ∧ t < 1729998000000 then 7200000 else 3600000,
    legacyParse := fun _ => none,
    tza_bound := fun t => by
      beta_reduce
      by_cases h : 1711846800000 ≤ t ∧ t < 1729990800000
      · rw [if_pos h]; decide
      · rw [if_neg h]; decide,
    tzaLocal_bound := fun t => by
      beta_reduce
      by_cases h : 1711854000000 ≤ t ∧ t < 1729998000000
      · rw [if_pos h]; decide
      · rw [if_neg h]; decide }

/-- A host on the eastern time of North America in the year 2024: five hours west of UTC,
and four hours from 2024-03-10T07:00Z to 2024-11-03T06:00Z (local 03:00 to local 02:00). -/
def newYorkEnv : JsEnv :=
  { tza := fun t => if 1710054000000 ≤ t ∧ t < 1730613600000 then -14400000 else -18000000,
    tzaLocal := fun t =>
      if 1710039600000 ≤ t ∧ t < 1730599200000 then -14400000 else -18000000,
    legacyParse := fun _ => none,
    tza_bound := fun t => by
      beta_reduce
      by_cases h : 1710054000000 ≤ t ∧ t < 1730613600000
      · rw [if_pos h]; decide
      · rw [if_neg h]; decide,
    tzaLocal_bound := fun t => by
      beta_reduce
      by_cases h : 1710039600000 ≤ t ∧ t < 1730599200000
      · rw [if_pos h]; decide
      · rw [if_neg h]; decide }

end JsDate

open JsDate

/-- A string-valued property of a record; `none` is `undefined`. -/
abbrev JsStr := Option String

/-- Truthiness of a string-valued property: false for `undefined` and for `""`. -/
def truthy (v : JsStr) : Bool :=
  match v with
  | none => false
  | some s => s != ""

/-- Expression `new Date(v)` for a string-valued property; `undefined` gives an invalid date. -/
def newDate (env : JsEnv) (v : JsStr) : Option Int :=
  match v with
  | none => none
  | some s => dateParse env s

/-- The identifier of a record: absent, a string, or an object with a `$oid` string. -/
inductive JsId where
  | undefined
  | str (s : String)
  | oid (s : String)
  deriving DecidableEq

/-- The six fields of the form; also the record handed to `onCreate`. -/
structure Draft where
  fullName : JsStr
  phoneNumber : JsStr
  emailAddress : JsStr
  membershipStartDate : JsStr
  nextPaymentDate : JsStr
  paymentStatus : JsStr
  deriving DecidableEq

/-- A member record: the six fields and the identifier `_id`. -/
structure Member extends Draft where
  _id : JsId
  deriving DecidableEq

namespace UserModal

/-- State of the component: the six fields and the error message. -/
structure FormState extends Draft where
  formError : String
  deriving DecidableEq

/-- State after the `useState` initialisers. -/
def initialState : FormState :=
  { fullName := some "", phoneNumber := some "", emailAddress := some "",
    membershipStartDate := some "", nextPaymentDate := some "", paymentStatus := some "",
    formError := "" }

/-- The effect on `editingItem` (lines 24 to 53). -/
def initEffect (env : JsEnv) (now : Int) (editingItem : Option Member) (s : FormState) :
    FormState :=
  let today := setHours0 env now
  match editingItem with
  | some item =>
    let nextDate := (newDate env item.nextPaymentDate).map (setHours0 env)
    { s with
      fullName := item.fullName
      phoneNumber := item.phoneNumber
      emailAddress := item.emailAddress
      membershipStartDate := item.membershipStartDate
      nextPaymentDate := item.nextPaymentDate
      paymentStatus := some (if dateLE nextDate (some today) then "inactive" else "active") }
  | none =>
    let nextPayment := setMonth env now (getMonth env now + 1)
    let formattedNext := splitT0 (toISOString nextPayment)
    let nextDate := (newDate env (some formattedNext)).map (setHours0 env)
    { s with
      fullName := some ""
      phoneNumber := some ""
      emailAddress := some ""
      membershipStartDate := some (splitT0 (toISOString now))
      nextPaymentDate := some formattedNext
      paymentStatus := some (if dateLE nextDate (some today) then "inactive" else "active") }

/-- The effect on `nextPaymentDate` (lines 56 to 68). -/
def statusEffect (env : JsEnv) (now : Int) (s : FormState) : FormState :=
  let today := setHours0 env now
  let nextDate := (newDate env s.nextPaymentDate).map (setHours0 env)
  if truthy s.nextPaymentDate && dateLE nextDate (some today) then
    { s with paymentStatus := some "inactive" }
  else
    { s with paymentStatus := some "active" }

/-- Helper `resetForm` (lines 71 to 80). -/
def resetForm (env : JsEnv) (now : Int) (s : FormState) : FormState :=
  { s with
    fullName := some ""
    phoneNumber := some ""
    emailAddress := some ""
    membershipStartDate := some (splitT0 (toISOString now))
    nextPaymentDate := some (splitT0 (toISOString (setMonth env now (getMonth env now + 1))))
    paymentStatus := some "" }

/-- A call of one of the four callbacks the component receives. -/
inductive Call where
  | onCreate (record : Draft)
  | onUpdate (record : Member)
  | onSuccess
  | onCancel
  deriving DecidableEq

/-- What one run of `handleSubmit` leaves behind: the state, the callbacks called, in
order, the delays in milliseconds of the timers set to clear the form error, and
whether the run ended in a `TypeError`. -/
structure Outcome where
  state : FormState
  calls : List Call
  timers : List Nat
  threw : Bool
  deriving DecidableEq

/-- The text of the validation error. -/
def requiredMessage : String := "All fields are required. Please fill in all fields."

/-- Handler `handleSubmit` (lines 83 to 125): the validation with its early return, then
the branch on `creatingUser`, then the two calls after the branch.  In the second branch
`editingItem._id` is read before `onUpdate` is called, which is a `TypeError` when there is
no `editingItem`. -/
def handleSubmit (env : JsEnv) (now : Int) (creatingUser : Bool) (editingItem : Option Member)
    (s : FormState) : Outcome :=
  if !truthy s.fullName || !truthy s.phoneNumber || !truthy s.emailAddress ||
      !truthy s.membershipStartDate || !truthy s.nextPaymentDate || !truthy s.paymentStatus then
    { state := { s with formError := requiredMessage }, calls := [], timers := [3000],
      threw := false }
  else
    let branch : Option (FormState × List Call) :=
      if creatingUser then
        some (resetForm env now s, [Call.onCreate s.toDraft, Call.onSuccess])
      else
        match editingItem with
        | none => none
        | some item => some (s, [Call.onUpdate { s.toDraft with _id := item._id }])
    match branch with
    | none => { state := s, calls := [], timers := [], threw := true }
    | some (st, calls) =>
      { state := st, calls := calls ++ [Call.onSuccess, Call.onCancel], timers := [],
        threw := false }

/-- All six fields of the form are filled in. -/
def filled (s : FormState) : Prop :=
  truthy s.fullName = true ∧ truthy s.phoneNumber = true ∧ truthy s.emailAddress = true ∧
  truthy s.membershipStartDate = true ∧ truthy s.nextPaymentDate = true ∧
  truthy s.paymentStatus = true

instance (s : FormState) : Decidable (filled s) := by
  unfold filled
  infer_instance

/-- A form with all six fields filled in. -/
def sampleForm : FormState :=
  { fullName := some "Ada Lovelace", phoneNumber := some "0691234567",
    emailAddress := some "ada@example.com", membershipStartDate := some "2024-06-15",
    nextPaymentDate := some "2024-07-15", paymentStatus := some "active", formError := "" }

/-- A stored member record. -/
def sampleItem : Member :=
  { fullName := some "Ada Lovelace", phoneNumber := some "0691234567",
    emailAddress := some "ada@example.com", membershipStartDate := some "2024-05-15",
    nextPaymentDate := some "2024-06-10", paymentStatus := some "inactive",
    _id := JsId.oid "665f1c2e9b1e8a0012345678" }

end UserModal

namespace UserTable

/-- Content of a table cell: the value of a property, or the `UserActions` element of a record. -/
inductive Cell where
  | text (v : JsStr)
  | actions (record : Member)
  deriving DecidableEq

/-- A column of the table: title, key, and either a property to show or a render function. -/
structure Column where
  title : String
  key : String
  dataIndex : Option (Member → JsStr)
  render : Option (Member → Cell)

/-- The seven columns (lines 5 to 52). -/
def columns : List Column :=
  [ { title := "Full Name", key := "fullName", dataIndex := some (·.fullName), render := none },
    { title := "Phone Number", key := "phoneNumber", dataIndex := some (·.phoneNumber),
      render := none },
    { title := "Email Address", key := "emailAddress", dataIndex := some (·.emailAddress),
      render := none },
    { title := "Membership Start Date", key := "membershipStartDate",
      dataIndex := some (·.membershipStartDate), render := none },
    { title := "Next Payment Date", key := "nextPaymentDate",
      dataIndex := some (·.nextPaymentDate), render := none },
    { title := "Payment Status", key := "paymentStatus", dataIndex := some (·.paymentStatus),
      render := none },
    { title := "Action", key := "action", dataIndex := none, render := some Cell.actions } ]

/-- Key of a row: the identifier, or the position of the record when it has none. -/
inductive RowKey where
  | id (i : JsId)
  | index (n : Nat)
  deriving DecidableEq

/-- A rendered row of the table body. -/
structure Row where
  key : RowKey
  className : String
  cells : List Cell
  deriving DecidableEq

/-- Expression `user._id?.$oid || user._id` (line 70). -/
def userId (user : Member) : JsId :=
  match user._id with
  | JsId.oid o => if o != "" then JsId.str o else JsId.oid o
  | other => other

/-- Expression `userId || index` (line 75). -/
def rowKey (user : Member) (index : Nat) : RowKey :=
  match userId user with
  | JsId.undefined => RowKey.index index
  | JsId.str s => if s != "" then RowKey.id (JsId.str s) else RowKey.index index
  | JsId.oid o => RowKey.id (JsId.oid o)

/-- Content of the cell of column `col` in the row of `user` (line 78). -/
def renderCell (col : Column) (user : Member) : Cell :=
  match col.render with
  | some r => r user
  | none =>
    match col.dataIndex with
    | some f => Cell.text (f user)
    | none => Cell.text none

/-- The callback of `data.map` (lines 69 to 83). -/
def renderRow (user : Member) (index : Nat) : Row :=
  let isActive := decide (user.paymentStatus = some "active")
  let rowClass := if isActive then "bg-green-100" else "bg-red-100"
  { key := rowKey user index, className := rowClass,
    cells := columns.map fun col => renderCell col user }

/-- The rows of the table body: `data.map((user, index) => ...)`. -/
def tableRows (data : List Member) : List Row :=
  data.enum.map fun p => renderRow p.2 p.1

end UserTable

/-! ## Calendar arithmetic -/

namespace JsDate

theorem dayFromYear_succ (y : Int) : dayFromYear (y + 1) = dayFromYear y + daysInYear y := by
  unfold dayFromYear daysInYear
  have h1 : (y - 1901) / 100 = ((y - 1969) / 4 + 17) / 25 := by omega
  have h2 : (y - 1601) / 400 = ((y - 1901) / 100 + 3) / 4 := by omega
  have h3 : (y + 1 - 1901) / 100 = ((y + 1 - 1969) / 4 + 17) / 25 := by omega
  have h4 : (y + 1 - 1601) / 400 = ((y + 1 - 1901) / 100 + 3) / 4 := by omega
  by_cases c4 : y % 4 ≠ 0
  · rw [if_pos c4]; omega
  rw [if_neg c4]
  by_cases c100 : y % 100 ≠ 0
  · rw [if_pos c100]; omega
  rw [if_neg c100]
  by_cases c400 : y % 400 ≠ 0
  · rw [if_pos c400]; omega
  rw [if_neg c400]; omega

theorem leapOfYear_range (y : Int) : leapOfYear y = 0 ∨ leapOfYear y = 1 := by
  unfold leapOfYear
  by_cases h : daysInYear y = 366
  · rw [if_pos h]; exact Or.inr rfl
  · rw [if_neg h]; exact Or.inl rfl

theorem daysInYear_eq (y : Int) : daysInYear y = 365 + leapOfYear y := by
  have h : daysInYear y = 365 ∨ daysInYear y = 366 := by
    unfold daysInYear
    by_cases c4 : y % 4 ≠ 0
    · rw [if_pos c4]; exact Or.inl rfl
    rw [if_neg c4]
    by_cases c100 : y % 100 ≠ 0
    · rw [if_pos c100]; exact Or.inr rfl
    rw [if_neg c100]
    by_cases c400 : y % 400 ≠ 0
    · rw [if_pos c400]; exact Or.inl rfl
    rw [if_neg c400]; exact Or.inr rfl
  unfold leapOfYear
  by_cases c : daysInYear y = 366
  · rw [if_pos c]; omega
  · rw [if_neg c]; omega

theorem dayFromYear_mono {y z : Int} (h : y ≤ z) : dayFromYear y ≤ dayFromYear z := by
  refine @Int.le_induction (fun z => dayFromYear y ≤ dayFromYear z) y (le_refl _)
    (fun n _ ih => ?_) z h
  simp only at ih ⊢
  have h1 := dayFromYear_succ n
  have h2 := daysInYear_eq n
  have h3 := leapOfYear_range n
  omega

theorem dayFromYear_bounds (y : Int) :
    146097 * (y - 1970) - 146097 < 400 * dayFromYear y ∧
    400 * dayFromYear y < 146097 * (y - 1970) + 146097 := by
  unfold dayFromYear
  omega

theorem yearFromDay_spec (d : Int) :
    dayFromYear (yearFromDay d) ≤ d ∧ d < dayFromYear (yearFromDay d + 1) := by
  unfold yearFromDay
  simp only
  have b1 := dayFromYear_bounds (1970 + 400 * d / 146097 - 1)
  have b2 := dayFromYear_bounds (1970 + 400 * d / 146097 + 1 + 1)
  have e1 : 1970 + 400 * d / 146097 - 1 + 1 = 1970 + 400 * d / 146097 := by omega
  by_cases h1 : d < dayFromYear (1970 + 400 * d / 146097)
  · rw [if_pos h1, e1]
    generalize dayFromYear (1970 + 400 * d / 146097 - 1) = A at *
    generalize dayFromYear (1970 + 400 * d / 146097) = B at *
    omega
  rw [if_neg h1]
  by_cases h2 : dayFromYear (1970 + 400 * d / 146097 + 1) ≤ d
  · rw [if_pos h2]
    generalize dayFromYear (1970 + 400 * d / 146097 + 1 + 1) = A at *
    generalize dayFromYear (1970 + 400 * d / 146097 + 1) = B at *
    omega
  rw [if_neg h2]
  omega

theorem yearFromDay_unique {y x : Int} (h1 : dayFromYear y ≤ x) (h2 : x < dayFromYear (y + 1)) :
    yearFromDay x = y := by
  have hs := yearFromDay_spec x
  by_contra hne
  rcases lt_or_gt_of_ne hne with h | h
  · have := dayFromYear_mono (show yearFromDay x + 1 ≤ y by omega)
    omega
  · have := dayFromYear_mono (show y + 1 ≤ yearFromDay x by omega)
    omega

theorem dayWithinYear_range (d : Int) :
    0 ≤ dayWithinYear d ∧ dayWithinYear d < 365 + leapOfYear (yearFromDay d) := by
  have hs := yearFromDay_spec d
  have h1 := dayFromYear_succ (yearFromDay d)
  have h2 := daysInYear_eq (yearFromDay d)
  unfold dayWithinYear
  omega

theorem monthStart_table (l : Int) :
    monthStart 0 l = 0 ∧ monthStart 1 l = 31 ∧ monthStart 2 l = 59 + l ∧
    monthStart 3 l = 90 + l ∧ monthStart 4 l = 120 + l ∧ monthStart 5 l = 151 + l ∧
    monthStart 6 l = 181 + l ∧ monthStart 7 l = 212 + l ∧ monthStart 8 l = 243 + l ∧
    monthStart 9 l = 273 + l ∧ monthStart 10 l = 304 + l ∧ monthStart 11 l = 334 + l :=
  ⟨rfl, rfl, rfl, rfl, rfl, rfl, rfl, rfl, rfl, rfl, rfl, rfl⟩

theorem daysInMonth_table (l : Int) :
    daysInMonth 0 l = 31 ∧ daysInMonth 1 l = 28 + l ∧ daysInMonth 2 l = 31 ∧
    daysInMonth 3 l = 30 ∧ daysInMonth 4 l = 31 ∧ daysInMonth 5 l = 30 ∧
    daysInMonth 6 l = 31 ∧ daysInMonth 7 l = 31 ∧ daysInMonth 8 l = 30 ∧
    daysInMonth 9 l = 31 ∧ daysInMonth 10 l = 30 ∧ daysInMonth 11 l = 31 :=
  ⟨rfl, rfl, rfl, rfl, rfl, rfl, rfl, rfl, rfl, rfl, rfl, rfl⟩

theorem monthOfYearDay_spec (n l : Int) (hn : 0 ≤ n) (hn2 : n < 365 + l) :
    0 ≤ monthOfYearDay n l ∧ monthOfYearDay n l ≤ 11 ∧
    monthStart (monthOfYearDay n l) l ≤ n ∧
    n < monthStart (monthOfYearDay n l) l + daysInMonth (monthOfYearDay n l) l := by
  unfold monthOfYearDay
  by_cases h0 : n < 31
  · rw [if_pos h0]; simp only [monthStart_table l, daysInMonth_table l]; omega
  rw [if_neg h0]
  by_cases h1 : n < 59 + l
  · rw [if_pos h1]; simp only [monthStart_table l, daysInMonth_table l]; omega
  rw [if_neg h1]
  by_cases h2 : n < 90 + l
  · rw [if_pos h2]; simp only [monthStart_table l, daysInMonth_table l]; omega
  rw [if_neg h2]
  by_cases h3 : n < 120 + l
  · rw [if_pos h3]; simp only [monthStart_table l, daysInMonth_table l]; omega
  rw [if_neg h3]
  by_cases h4 : n < 151 + l
  · rw [if_pos h4]; simp only [monthStart_table l, daysInMonth_table l]; omega
  rw [if_neg h4]
  by_cases h5 : n < 181 + l
  · rw [if_pos h5]; simp only [monthStart_table l, daysInMonth_table l]; omega
  rw [if_neg h5]
  by_cases h6 : n < 212 + l
  · rw [if_pos h6]; simp only [monthStart_table l, daysInMonth_table l]; omega
  rw [if_neg h6]
  by_cases h7 : n < 243 + l
  · rw [if_pos h7]; simp only [monthStart_table l, daysInMonth_table l]; omega
  rw [if_neg h7]
  by_cases h8 : n < 273 + l
  · rw [if_pos h8]; simp only [monthStart_table l, daysInMonth_table l]; omega
  rw [if_neg h8]
  by_cases h9 : n < 304 + l
  · rw [if_pos h9]; simp only [monthStart_table l, daysInMonth_table l]; omega
  rw [if_neg h9]
  by_cases h10 : n < 334 + l
  · rw [if_pos h10]; simp only [monthStart_table l, daysInMonth_table l]; omega
  rw [if_neg h10]; simp only [monthStart_table l, daysInMonth_table l]; omega

theorem civil_range (d : Int) :
    0 ≤ monthFromDay d ∧ monthFromDay d ≤ 11 ∧ 1 ≤ dateFromDay d ∧
    dateFromDay d ≤ daysInMonth (monthFromDay d) (leapOfYear (yearFromDay d)) := by
  have hr := dayWithinYear_range d
  have hm := monthOfYearDay_spec (dayWithinYear d) (leapOfYear (yearFromDay d)) hr.1 hr.2
  unfold dateFromDay monthFromDay
  omega

theorem makeDay_civil (d : Int) :
    makeDay (yearFromDay d) (monthFromDay d) (dateFromDay d) = d := by
  have hm := civil_range d
  have e1 : monthFromDay d / 12 = 0 := by omega
  have e2 : monthFromDay d % 12 = monthFromDay d := by omega
  unfold makeDay
  simp only [e1, e2, add_zero]
  unfold dateFromDay dayWithinYear
  omega

theorem makeDay_nextMonth (y m dt : Int) (h0 : 0 ≤ m) (h1 : m ≤ 11) :
    makeDay y (m + 1) dt = makeDay y m dt + daysInMonth m (leapOfYear y) := by
  have hy := dayFromYear_succ y
  have hl := daysInYear_eq y
  have e1 : m / 12 = 0 := by omega
  have e2 : m % 12 = m := by omega
  unfold makeDay
  simp only [e1, e2, add_zero]
  by_cases h11 : m = 11
  · subst h11
    have e3 : ((11 : Int) + 1) / 12 = 1 := by decide
    have e4 : ((11 : Int) + 1) % 12 = 0 := by decide
    rw [e3, e4]
    simp only [monthStart_table (leapOfYear y), daysInMonth_table (leapOfYear y),
      monthStart_table (leapOfYear (y + 1))]
    omega
  · have e3 : (m + 1) / 12 = 0 := by omega
    have e4 : (m + 1) % 12 = m + 1 := by omega
    rw [e3, e4, add_zero]
    have hc : m = 0 ∨ m = 1 ∨ m = 2 ∨ m = 3 ∨ m = 4 ∨ m = 5 ∨ m = 6 ∨ m = 7 ∨ m = 8 ∨
        m = 9 ∨ m = 10 := by omega
    rcases hc with h | h | h | h | h | h | h | h | h | h | h <;> subst h <;>
      norm_num [monthStart_table (leapOfYear y), daysInMonth_table (leapOfYear y)] <;> omega

theorem daysInMonth_range (m l : Int) (hl : l = 0 ∨ l = 1) :
    28 ≤ daysInMonth m l ∧ daysInMonth m l ≤ 31 := by
  unfold daysInMonth
  by_cases h1 : m = 1
  · rw [if_pos h1]; omega
  rw [if_neg h1]
  by_cases h2 : m = 3 ∨ m = 5 ∨ m = 8 ∨ m = 10
  · rw [if_pos h2]; omega
  · rw [if_neg h2]; omega

/-- A valid calendar date is the date of its day number. -/
theorem civil_makeDay (y m dt : Int) (h0 : 0 ≤ m) (h1 : m ≤ 11) (h2 : 1 ≤ dt)
    (h3 : dt ≤ daysInMonth m (leapOfYear y)) :
    yearFromDay (makeDay y m dt) = y ∧ monthFromDay (makeDay y m dt) = m ∧
    dateFromDay (makeDay y m dt) = dt := by
  have hy := dayFromYear_succ y
  have hl := daysInYear_eq y
  have hlr := leapOfYear_range y
  have e1 : m / 12 = 0 := by omega
  have e2 : m % 12 = m := by omega
  have hval : makeDay y m dt = dayFromYear y + monthStart m (leapOfYear y) + dt - 1 := by
    unfold makeDay
    simp only [e1, e2, add_zero]
  have hc : m = 0 ∨ m = 1 ∨ m = 2 ∨ m = 3 ∨ m = 4 ∨ m = 5 ∨ m = 6 ∨ m = 7 ∨ m = 8 ∨
      m = 9 ∨ m = 10 ∨ m = 11 := by omega
  have hyear : yearFromDay (makeDay y m dt) = y := by
    apply yearFromDay_unique
    · rw [hval]
      rcases hc with h | h | h | h | h | h | h | h | h | h | h | h <;> subst h <;>
        simp only [monthStart_table (leapOfYear y), daysInMonth_table (leapOfYear y)] at * <;>
        omega
    · rw [hval]
      rcases hc with h | h | h | h | h | h | h | h | h | h | h | h <;> subst h <;>
        simp only [monthStart_table (leapOfYear y), daysInMonth_table (leapOfYear y)] at * <;>
        omega
  have hn : dayWithinYear (makeDay y m dt) = monthStart m (leapOfYear y) + dt - 1 := by
    unfold dayWithinYear
    rw [hyear, hval]
    omega
  have hr : 0 ≤ monthStart m (leapOfYear y) + dt - 1 ∧
      monthStart m (leapOfYear y) + dt - 1 < 365 + leapOfYear y := by
    rcases hc with h | h | h | h | h | h | h | h | h | h | h | h <;> subst h <;>
        simp only [monthStart_table (leapOfYear y), daysInMonth_table (leapOfYear y)] at * <;>
        omega
  have hspec := monthOfYearDay_spec (monthStart m (leapOfYear y) + dt - 1) (leapOfYear y)
    hr.1 hr.2
  have hmonth : monthFromDay (makeDay y m dt) = m := by
    unfold monthFromDay
    rw [hyear, hn]
    generalize monthOfYearDay (monthStart m (leapOfYear y) + dt - 1) (leapOfYear y) = k at *
    have hk : k = 0 ∨ k = 1 ∨ k = 2 ∨ k = 3 ∨ k = 4 ∨ k = 5 ∨ k = 6 ∨ k = 7 ∨ k = 8 ∨
        k = 9 ∨ k = 10 ∨ k = 11 := by omega
    rcases hc with h | h | h | h | h | h | h | h | h | h | h | h <;> subst h <;>
      rcases hk with h | h | h | h | h | h | h | h | h | h | h | h <;> subst h <;>
      simp only [monthStart_table (leapOfYear y), daysInMonth_table (leapOfYear y)] at * <;>
      omega
  refine ⟨hyear, hmonth, ?_⟩
  unfold dateFromDay
  rw [hmonth, hyear, hn]
  omega

end JsDate
/-! ## Time values -/

namespace JsDate

theorem day_add_days (t k : Int) : day (t + k * msPerDay) = day t + k := by
  unfold day msPerDay
  omega

theorem timeWithinDay_add_days (t k : Int) : timeWithinDay (t + k * msPerDay) = timeWithinDay t := by
  unfold timeWithinDay msPerDay
  omega

/-- One month on: `setMonth` to the month after the current one is the time value of the
local time one local month length later. -/
theorem setMonth_next (env : JsEnv) (t : Int) :
    setMonth env t (getMonth env t + 1) = utc env (nextMonthLocal env t) := by
  have hc := civil_range (day (localTime env t))
  have hm := makeDay_nextMonth (yearFromDay (day (localTime env t)))
    (monthFromDay (day (localTime env t))) (dateFromDay (day (localTime env t))) hc.1 hc.2.1
  have hd := makeDay_civil (day (localTime env t))
  unfold setMonth nextMonthLocal monthLength getMonth
  simp only
  rw [hm, hd]
  congr 1
  generalize daysInMonth (monthFromDay (day (localTime env t)))
    (leapOfYear (yearFromDay (day (localTime env t)))) = k
  unfold day timeWithinDay msPerDay
  omega

theorem monthLength_range (env : JsEnv) (t : Int) :
    28 ≤ monthLength env t ∧ monthLength env t ≤ 31 :=
  daysInMonth_range _ _ (leapOfYear_range _)

/-- The start of the local day in a zone of fixed offset `c`: the order of local
midnights is the order of local days. -/
theorem setHours0_le_iff (env : JsEnv) (c : Int)
    (hfix : ∀ t, env.tza t = c ∧ env.tzaLocal t = c) (a b : Int) :
    setHours0 env a ≤ setHours0 env b ↔ day (localTime env a) ≤ day (localTime env b) := by
  unfold setHours0 utc localTime
  simp only [(hfix _).1, (hfix _).2]
  unfold day msPerDay
  omega

theorem yearFromDay_range (d lo hi : Int) (h1 : dayFromYear lo ≤ d) (h2 : d < dayFromYear hi) :
    lo ≤ yearFromDay d ∧ yearFromDay d < hi := by
  have hs := yearFromDay_spec d
  constructor
  · by_contra h
    have := dayFromYear_mono (show yearFromDay d + 1 ≤ lo by omega)
    omega
  · by_contra h
    have := dayFromYear_mono (show hi ≤ yearFromDay d by omega)
    omega

/-! ## ISO strings -/

theorem digitChar_val (n : Nat) : (digitChar n).toNat = 48 + n % 10 := by
  have h : n % 10 < 10 := Nat.mod_lt _ (by decide)
  unfold digitChar
  generalize n % 10 = k at *
  interval_cases k <;> rfl

theorem digitVal_digitChar (n : Nat) : digitVal (digitChar n) = some (n % 10) := by
  unfold digitVal
  rw [digitChar_val]
  have h : n % 10 < 10 := Nat.mod_lt _ (by decide)
  rw [if_pos (by omega)]
  congr 1
  omega

theorem digitChar_ne_T (n : Nat) : digitChar n ≠ 'T' := by
  intro h
  have h1 := digitChar_val n
  rw [h] at h1
  have h2 : ('T' : Char).toNat = 84 := rfl
  have h3 : n % 10 < 10 := Nat.mod_lt _ (by decide)
  omega

theorem num2_pad2 (n : Nat) (h : n < 100) :
    num2 (digitChar (n / 10)) (digitChar n) = some (n : Int) := by
  unfold num2
  simp only [digitVal_digitChar, Option.bind_eq_bind, Option.some_bind, Option.pure_def]
  congr 2
  omega

theorem num4_pad4 (n : Nat) (h : n < 10000) :
    num4 (digitChar (n / 1000)) (digitChar (n / 100)) (digitChar (n / 10)) (digitChar n) =
      some (n : Int) := by
  unfold num4
  simp only [digitVal_digitChar, Option.bind_eq_bind, Option.some_bind, Option.pure_def]
  congr 2
  omega

theorem readDateOnly_isoDateChars (y m d : Int) (hy0 : 0 ≤ y) (hy1 : y ≤ 9999)
    (hm0 : 0 ≤ m) (hm1 : m < 100) (hd0 : 0 ≤ d) (hd1 : d < 100) :
    readDateOnly (isoDateChars y m d) = some (y, m, d) := by
  unfold isoDateChars yearChars
  rw [if_pos ⟨hy0, hy1⟩]
  simp only [pad4, pad2, List.cons_append, List.nil_append, readDateOnly, and_self, if_true]
  rw [num4_pad4 _ (by omega), num2_pad2 _ (by omega), num2_pad2 _ (by omega)]
  simp only [Option.bind_eq_bind, Option.some_bind, Option.pure_def, Int.toNat_of_nonneg hy0,
    Int.toNat_of_nonneg hm0, Int.toNat_of_nonneg hd0]

theorem isoDateChars_ne_T (y m d : Int) : ∀ c ∈ isoDateChars y m d, c ≠ 'T' := by
  have hminus : ('-' : Char) ≠ 'T' := by decide
  have hplus : ('+' : Char) ≠ 'T' := by decide
  unfold isoDateChars yearChars
  by_cases h1 : 0 ≤ y ∧ y ≤ 9999
  · rw [if_pos h1]
    simp [pad4, pad2, digitChar_ne_T, hminus]
  rw [if_neg h1]
  by_cases h2 : y < 0
  · rw [if_pos h2]
    simp [pad6, pad2, digitChar_ne_T, hminus]
  · rw [if_neg h2]
    simp [pad6, pad2, digitChar_ne_T, hminus, hplus]

theorem takeWhile_append_stop {α : Type} (p : α → Bool) (xs ys : List α) (a : α)
    (h : ∀ x ∈ xs, p x = true) (ha : p a = false) :
    (xs ++ a :: ys).takeWhile p = xs := by
  induction xs with
  | nil => simp [List.takeWhile, ha]
  | cons x xs ih =>
    have hx : p x = true := h x (List.mem_cons_self _ _)
    rw [List.cons_append, List.takeWhile_cons, hx, if_pos rfl,
      ih (fun z hz => h z (List.mem_cons_of_mem _ hz))]

/-- The date part of an ISO string. -/
theorem splitT0_toISOString (t : Int) :
    splitT0 (toISOString t) =
      String.mk (isoDateChars (yearFromDay (day t)) (monthFromDay (day t) + 1)
        (dateFromDay (day t))) := by
  unfold splitT0 toISOString
  simp only
  rw [takeWhile_append_stop]
  · intro x hx
    simpa using isoDateChars_ne_T _ _ _ x hx
  · simp

/-- A calendar date of the years 0 to 9999, written `YYYY-MM-DD`, parses to midnight UTC of
that date. -/
theorem dateParse_isoDate (env : JsEnv) (y mn dt : Int) (hy0 : 0 ≤ y) (hy1 : y ≤ 9999)
    (h0 : 0 ≤ mn) (h1 : mn ≤ 11) (h2 : 1 ≤ dt) (h3 : dt ≤ daysInMonth mn (leapOfYear y)) :
    dateParse env (String.mk (isoDateChars y (mn + 1) dt)) = some (makeDay y mn dt * msPerDay) := by
  have hr := daysInMonth_range mn (leapOfYear y) (leapOfYear_range y)
  unfold dateParse
  simp only
  rw [readDateOnly_isoDateChars y (mn + 1) dt hy0 hy1 (by omega) (by omega) (by omega) (by omega)]
  simp only [add_sub_cancel_right]
  rw [if_pos ⟨by omega, by omega, h2, h3⟩]

/-- The date part of the ISO string of `t` parses to the start of the UTC day of `t`. -/
theorem dateParse_splitT0_toISOString (env : JsEnv) (t : Int)
    (hy0 : 0 ≤ yearFromDay (day t)) (hy1 : yearFromDay (day t) ≤ 9999) :
    dateParse env (splitT0 (toISOString t)) = some (day t * msPerDay) := by
  have hc := civil_range (day t)
  rw [splitT0_toISOString, dateParse_isoDate env _ _ _ hy0 hy1 hc.1 hc.2.1 hc.2.2.1 hc.2.2.2,
    makeDay_civil]

/-- A string of the shape `YYYY-MM-DD` that names a day of the calendar parses to midnight
UTC of that day, whatever the host. -/
theorem dateParse_of_read (env : JsEnv) (s : String) (y m d : Int)
    (hr : readDateOnly s.data = some (y, m, d))
    (hv : 1 ≤ m ∧ m ≤ 12 ∧ 1 ≤ d ∧ d ≤ daysInMonth (m - 1) (leapOfYear y)) :
    dateParse env s = some (makeDay y (m - 1) d * msPerDay) := by
  unfold dateParse
  rw [hr]
  simp only
  rw [if_pos hv]

end JsDate

/-! ## The defaults of Create mode -/

namespace UserModal

theorem day_of_day (x : Int) : day (x * msPerDay) = x := by
  unfold day msPerDay
  omega

theorem utcDate_of_day (t : Int) : utcDate (day t * msPerDay) = utcDate t := by
  unfold utcDate
  rw [day_of_day]

/-- Equal calendar dates are the same day. -/
theorem day_eq_of_utcDate_eq (a b : Int) (h : utcDate a = utcDate b) : day a = day b := by
  unfold utcDate at h
  simp only [Prod.mk.injEq, add_left_inj] at h
  rw [← makeDay_civil (day a), ← makeDay_civil (day b), h.1, h.2.1, h.2.2]

/-- The fields `initEffect` sets in Create mode. -/
theorem initEffect_create_fields (env : JsEnv) (now : Int) (s : FormState) :
    (initEffect env now none s).fullName = some "" ∧
    (initEffect env now none s).phoneNumber = some "" ∧
    (initEffect env now none s).emailAddress = some "" ∧
    (initEffect env now none s).membershipStartDate = some (isoDate (utcDate now)) ∧
    (initEffect env now none s).nextPaymentDate =
      some (isoDate (utcDate (utc env (nextMonthLocal env now)))) := by
  unfold initEffect
  simp only [splitT0_toISOString, setMonth_next, isoDate, utcDate, true_and]

/-- The calendar date one month length after day `d` is the date of day `d` carried to the
following month. -/
theorem utcDate_add_monthLength (d : Int) :
    utcDate ((d + daysInMonth (monthFromDay d) (leapOfYear (yearFromDay d))) * msPerDay) =
      carryNextMonth (utcDate (d * msPerDay)) := by
  have hc := civil_range d
  have hn := makeDay_nextMonth (yearFromDay d) (monthFromDay d) (dateFromDay d) hc.1 hc.2.1
  rw [makeDay_civil] at hn
  unfold carryNextMonth
  rw [← hn]
  unfold utcDate
  simp only [day_of_day]

/-- Carrying a calendar date to the following month gives the same day of that month when
the month has that day. -/
theorem carryNextMonth_eq_sameDay (d : Int)
    (hex : (utcDate (d * msPerDay)).2.2 ≤
      daysInMonth ((sameDayNextMonth (utcDate (d * msPerDay))).2.1 - 1)
        (leapOfYear (sameDayNextMonth (utcDate (d * msPerDay))).1)) :
    carryNextMonth (utcDate (d * msPerDay)) = sameDayNextMonth (utcDate (d * msPerDay)) := by
  have hc := civil_range d
  unfold carryNextMonth utcDate sameDayNextMonth at *
  simp only [day_of_day] at *
  by_cases h11 : monthFromDay d = 11
  · have e : monthFromDay d + 1 = 12 := by omega
    rw [if_pos e] at hex ⊢
    simp only at hex
    have hmk : makeDay (yearFromDay d) (monthFromDay d + 1) (dateFromDay d) =
        makeDay (yearFromDay d + 1) 0 (dateFromDay d) := by
      rw [e]
      unfold makeDay
      norm_num
    have hcm := civil_makeDay (yearFromDay d + 1) 0 (dateFromDay d) (le_refl _) (by decide)
      hc.2.2.1 (by simpa using hex)
    rw [hmk, hcm.1, hcm.2.1, hcm.2.2]
    rfl
  · have e : ¬ monthFromDay d + 1 = 12 := by omega
    rw [if_neg e] at hex ⊢
    simp only [add_sub_cancel_right] at hex
    have hcm := civil_makeDay (yearFromDay d) (monthFromDay d + 1) (dateFromDay d) (by omega)
      (by omega) hc.2.2.1 hex
    rw [hcm.1, hcm.2.1, hcm.2.2]

/-- The local date of the local time `setMonth` sets. -/
theorem utcDate_nextMonthLocal (env : JsEnv) (now : Int) :
    utcDate (nextMonthLocal env now) = carryNextMonth (localDate env now) := by
  unfold nextMonthLocal monthLength getMonth localDate
  rw [← utcDate_of_day (localTime env now + _), day_add_days, utcDate_add_monthLength,
    utcDate_of_day]

/-- The time value that the date part of the ISO string of next month parses to: the start
of a UTC day 25 to 34 days after the UTC day of `now`. -/
theorem initEffect_create_parsed (env : JsEnv) (now : Int) (s : FormState)
    (hy0 : 0 ≤ yearFromDay (day now)) (hy1 : yearFromDay (day now) ≤ 9998) :
    ∃ k : Int, 25 ≤ k ∧ k ≤ 34 ∧
      newDate env (initEffect env now none s).nextPaymentDate =
        some ((day now + k) * msPerDay) := by
  have hk := monthLength_range env now
  have hb1 := env.tza_bound now
  have hb2 := env.tzaLocal_bound (nextMonthLocal env now)
  have hnp : (initEffect env now none s).nextPaymentDate =
      some (splitT0 (toISOString (utc env (nextMonthLocal env now)))) := by
    unfold initEffect
    simp only [setMonth_next]
  have hday : day now + 25 ≤ day (utc env (nextMonthLocal env now)) ∧
      day (utc env (nextMonthLocal env now)) ≤ day now + 34 := by
    unfold utc nextMonthLocal localTime
    unfold nextMonthLocal localTime at hb2
    generalize monthLength env now = k at *
    generalize env.tzaLocal (now + env.tza now + k * msPerDay) = b at *
    generalize env.tza now = a at *
    unfold day
    unfold msPerDay at *
    omega
  refine ⟨day (utc env (nextMonthLocal env now)) - day now, by omega, by omega, ?_⟩
  have hs := yearFromDay_spec (day now)
  have hm1 := dayFromYear_mono (show (0 : Int) ≤ yearFromDay (day now) from hy0)
  have hm2 := dayFromYear_mono (show yearFromDay (day now) + 1 ≤ 9999 by omega)
  have e0 : dayFromYear 0 = -719528 := by decide
  have e1 : dayFromYear 9999 = 2932532 := by decide
  have e2 : dayFromYear 10000 = 2932897 := by decide
  have hr := yearFromDay_range (day (utc env (nextMonthLocal env now))) 0 10000
    (by omega) (by omega)
  rw [hnp]
  unfold newDate
  simp only
  rw [dateParse_splitT0_toISOString env _ hr.1 (by omega)]
  congr 2
  omega

end UserModal
/-! ## Payment status -/

namespace UserModal

theorem truthy_some_iff (D : String) : truthy (some D) = true ↔ D ≠ "" := by
  simp [truthy]

theorem truthy_eq_false_iff (v : JsStr) : truthy v = false ↔ v = none ∨ v = some "" := by
  cases v with
  | none => simp [truthy]
  | some s => simp [truthy]

theorem dateLE_some_iff (a : Option Int) (b : Int) :
    dateLE a (some b) = true ↔ ∃ t, a = some t ∧ t ≤ b := by
  cases a with
  | none => simp [dateLE]
  | some x => simp [dateLE]

/-- The status the effect on `nextPaymentDate` derives from a non-empty string. -/
theorem statusEffect_status_eq (env : JsEnv) (now : Int) (s : FormState) (D : String)
    (hD : D ≠ "") (hs : s.nextPaymentDate = some D) :
    (statusEffect env now s).paymentStatus =
      some (if dateLE ((dateParse env D).map (setHours0 env)) (some (setHours0 env now))
        then "inactive" else "active") := by
  have ht : truthy (some D) = true := (truthy_some_iff D).2 hD
  unfold statusEffect
  simp only [hs, newDate, ht, Bool.true_and]
  by_cases h : dateLE ((dateParse env D).map (setHours0 env)) (some (setHours0 env now)) = true
  · rw [if_pos h, if_pos h]
  · rw [if_neg h, if_neg h]

/-- Midnight UTC of day `n` lies on local day `n - 1` or `n` in a zone of fixed offset
less than a day away from UTC. -/
theorem localDay_of_parsed (env : JsEnv) (c : Int)
    (hfix : ∀ t, env.tza t = c ∧ env.tzaLocal t = c) (n : Int) (h1 : -msPerDay < c)
    (h2 : c < msPerDay) :
    n - 1 ≤ day (localTime env (n * msPerDay)) ∧ day (localTime env (n * msPerDay)) ≤ n := by
  unfold day localTime
  rw [(hfix _).1]
  unfold msPerDay at *
  omega

/-- The rule of the status in a zone of fixed offset `c`.  For a non-empty next payment
date `D` and any instant `now`, the effect on `nextPaymentDate` sets the status to "inactive"
exactly when `D` parses to a time value whose local midnight is on or before the local
midnight of `now` (the same as: whose local day is on or before the local day of `now`), and
to "active" otherwise; the result depends on `now` through its local day only; the edit
branch of the effect on `editingItem` derives the same status; and with today = 2024-06-15
the dates 2024-06-10, 2024-06-20 and 2024-06-15 give "inactive", "active" and "inactive"
when the offset is less than a day.  In a zone at or east of UTC, for `D` a calendar date
`YYYY-MM-DD`, the status is "inactive" exactly when that date is on or before the local date
of `now`. -/
theorem statusEffect_fixed_offset (env : JsEnv) (c : Int)
    (hfix : ∀ t, env.tza t = c ∧ env.tzaLocal t = c) (now : Int) (s : FormState) (D : String)
    (hD : D ≠ "") (hs : s.nextPaymentDate = some D) :
    ((statusEffect env now s).paymentStatus = some "inactive" ↔
      ∃ t, dateParse env D = some t ∧ setHours0 env t ≤ setHours0 env now) ∧
    ((statusEffect env now s).paymentStatus = some "inactive" ↔
      ∃ t, dateParse env D = some t ∧ day (localTime env t) ≤ day (localTime env now)) ∧
    ((statusEffect env now s).paymentStatus = some "active" ↔
      ¬ ∃ t, dateParse env D = some t ∧ setHours0 env t ≤ setHours0 env now) ∧
    (∀ later : Int, day (localTime env later) = day (localTime env now) →
      (statusEffect env later s).paymentStatus = (statusEffect env now s).paymentStatus) ∧
    (∀ item : Member, item.nextPaymentDate = some D →
      (initEffect env now (some item) s).paymentStatus = (statusEffect env now s).paymentStatus) ∧
    (day (localTime env now) = makeDay 2024 5 15 → -msPerDay < c →
      c < msPerDay →
      (D = "2024-06-10" → (statusEffect env now s).paymentStatus = some "inactive") ∧
      (D = "2024-06-20" → (statusEffect env now s).paymentStatus = some "active") ∧
      (D = "2024-06-15" → (statusEffect env now s).paymentStatus = some "inactive")) ∧
    (∀ y m d : Int, readDateOnly D.data = some (y, m, d) →
      1 ≤ m ∧ m ≤ 12 ∧ 1 ≤ d ∧ d ≤ daysInMonth (m - 1) (leapOfYear y) →
      0 ≤ c → c < msPerDay →
      ((statusEffect env now s).paymentStatus = some "inactive" ↔
        makeDay y (m - 1) d ≤ day (localTime env now))) := by
  have heq := statusEffect_status_eq env now s D hD hs
  have hle : dateLE ((dateParse env D).map (setHours0 env)) (some (setHours0 env now)) = true ↔
      ∃ t, dateParse env D = some t ∧ setHours0 env t ≤ setHours0 env now := by
    rw [dateLE_some_iff]
    constructor
    · rintro ⟨t, ht, hle⟩
      cases hp : dateParse env D with
      | none => rw [hp] at ht; simp at ht
      | some u =>
        rw [hp] at ht
        simp only [Option.map_some', Option.some.injEq] at ht
        exact ⟨u, rfl, by rw [ht]; exact hle⟩
    · rintro ⟨t, ht, hle⟩
      exact ⟨setHours0 env t, by rw [ht]; rfl, hle⟩
  have hin : (statusEffect env now s).paymentStatus = some "inactive" ↔
      ∃ t, dateParse env D = some t ∧ setHours0 env t ≤ setHours0 env now := by
    rw [heq, ← hle]
    by_cases h : dateLE ((dateParse env D).map (setHours0 env)) (some (setHours0 env now)) = true
    · rw [if_pos h]; simp [h]
    · rw [if_neg h]; simp [h]
  have hday : (statusEffect env now s).paymentStatus = some "inactive" ↔
      ∃ t, dateParse env D = some t ∧ day (localTime env t) ≤ day (localTime env now) := by
    rw [hin]
    constructor
    · rintro ⟨t, ht, h⟩
      exact ⟨t, ht, (setHours0_le_iff env c hfix t now).1 h⟩
    · rintro ⟨t, ht, h⟩
      exact ⟨t, ht, (setHours0_le_iff env c hfix t now).2 h⟩
  have hact : (statusEffect env now s).paymentStatus = some "active" ↔
      ¬ ∃ t, dateParse env D = some t ∧ setHours0 env t ≤ setHours0 env now := by
    rw [heq, ← hle]
    by_cases h : dateLE ((dateParse env D).map (setHours0 env)) (some (setHours0 env now)) = true
    · rw [if_pos h]; simp [h]
    · rw [if_neg h]; simp [h]
  refine ⟨hin, hday, hact, ?_, ?_, ?_, ?_⟩
  · intro later hl
    have e : setHours0 env later = setHours0 env now := by
      unfold setHours0
      rw [hl]
    rw [heq, statusEffect_status_eq env later s D hD hs, e]
  · intro item hi
    rw [heq]
    unfold initEffect
    simp only [hi, newDate]
  · intro htoday hz1 hz2
    have h10 : dateParse env "2024-06-10" = some (makeDay 2024 5 10 * msPerDay) :=
      dateParse_of_read env "2024-06-10" 2024 6 10 (by decide) (by decide)
    have h20 : dateParse env "2024-06-20" = some (makeDay 2024 5 20 * msPerDay) :=
      dateParse_of_read env "2024-06-20" 2024 6 20 (by decide) (by decide)
    have h15 : dateParse env "2024-06-15" = some (makeDay 2024 5 15 * msPerDay) :=
      dateParse_of_read env "2024-06-15" 2024 6 15 (by decide) (by decide)
    have e10 : makeDay 2024 5 10 = 19884 := by decide
    have e20 : makeDay 2024 5 20 = 19894 := by decide
    have e15 : makeDay 2024 5 15 = 19889 := by decide
    refine ⟨?_, ?_, ?_⟩
    · intro hd
      subst hd
      refine hday.2 ⟨_, h10, ?_⟩
      have := localDay_of_parsed env c hfix (makeDay 2024 5 10) hz1 hz2
      omega
    · intro hd
      subst hd
      refine hact.2 ?_
      rintro ⟨t, ht, hle⟩
      rw [h20] at ht
      cases ht
      have h := (setHours0_le_iff env c hfix _ now).1 hle
      have := localDay_of_parsed env c hfix (makeDay 2024 5 20) hz1 hz2
      omega
    · intro hd
      subst hd
      refine hday.2 ⟨_, h15, ?_⟩
      have := localDay_of_parsed env c hfix (makeDay 2024 5 15) hz1 hz2
      omega
  · intro y m d hr hv hz1 hz2
    have hp := dateParse_of_read env D y m d hr hv
    have hloc : day (localTime env (makeDay y (m - 1) d * msPerDay)) = makeDay y (m - 1) d := by
      unfold day localTime
      rw [(hfix _).1]
      unfold msPerDay at *
      omega
    rw [hday]
    constructor
    · rintro ⟨t, ht, hle⟩
      rw [hp] at ht
      cases ht
      rw [hloc] at hle
      exact hle
    · intro hle
      exact ⟨_, hp, by rw [hloc]; exact hle⟩


end UserModal

/-! ## The claims -/

open UserModal UserTable

set_option maxRecDepth 100000

/-- C1, the code at the failing input.  Five hours west of UTC, at noon local time of
2024-06-15, the next payment date 2024-06-16 is a day after today, and both effects set the
status "inactive": `new Date("2024-06-16")` is midnight UTC of 2024-06-16, 19:00 local time
of 2024-06-15, and `setHours(0, 0, 0, 0)` moves it to the local midnight of 2024-06-15, which
is the truncated today.  In the UTC zone, at noon of the same date, the same next payment
date gives "active". -/
theorem C1_status_west_of_utc :
    localDate westEnv 1718470800000 = (2024, 6, 15) ∧
    readDateOnly ("2024-06-16" : String).data = some (2024, 6, 16) ∧
    day (localTime westEnv 1718470800000) < makeDay 2024 5 16 ∧
    dateParse westEnv "2024-06-16" = some (makeDay 2024 5 16 * msPerDay) ∧
    setHours0 westEnv (makeDay 2024 5 16 * msPerDay) = setHours0 westEnv 1718470800000 ∧
    (statusEffect westEnv 1718470800000
      { sampleForm with nextPaymentDate := some "2024-06-16" }).paymentStatus =
      some "inactive" ∧
    (initEffect westEnv 1718470800000
      (some { sampleItem with nextPaymentDate := some "2024-06-16" })
      initialState).paymentStatus = some "inactive" ∧
    localDate utcEnv 1718452800000 = (2024, 6, 15) ∧
    (statusEffect utcEnv 1718452800000
      { sampleForm with nextPaymentDate := some "2024-06-16" }).paymentStatus =
      some "active" := by
  decide

/-- The validation of `handleSubmit` passes on a filled form. -/
theorem handleSubmit_guard_false (s : FormState) (h : filled s) :
    (!truthy s.fullName || !truthy s.phoneNumber || !truthy s.emailAddress ||
      !truthy s.membershipStartDate || !truthy s.nextPaymentDate || !truthy s.paymentStatus) =
      false := by
  obtain ⟨h1, h2, h3, h4, h5, h6⟩ := h
  simp [h1, h2, h3, h4, h5, h6]

/-- The calls of a submit of a filled form in Create mode. -/
theorem handleSubmit_create_calls (env : JsEnv) (now : Int) (editingItem : Option Member)
    (s : FormState) (h : filled s) :
    handleSubmit env now true editingItem s =
      { state := resetForm env now s,
        calls := [Call.onCreate s.toDraft, Call.onSuccess, Call.onSuccess, Call.onCancel],
        timers := [], threw := false } := by
  unfold handleSubmit
  rw [handleSubmit_guard_false s h]
  simp

/-- The calls of a submit of a filled form in Edit mode. -/
theorem handleSubmit_edit_calls (env : JsEnv) (now : Int) (item : Member)
    (s : FormState) (h : filled s) :
    handleSubmit env now false (some item) s =
      { state := s,
        calls := [Call.onUpdate { s.toDraft with _id := item._id }, Call.onSuccess,
          Call.onCancel],
        timers := [], threw := false } := by
  unfold handleSubmit
  rw [handleSubmit_guard_false s h]
  simp

/-- C2. In either mode, with or without a source record, when one of the six fields is empty
(`undefined` or the empty string) `handleSubmit` sets the form error to the text "All fields
are required. Please fill in all fields.", calls none of the four callbacks, leaves the six
fields as they were, and sets the timer of 3000 ms that clears the message. -/
theorem C2_submit_with_empty_field (env : JsEnv) (now : Int) (creatingUser : Bool)
    (editingItem : Option Member) (s : FormState)
    (h : truthy s.fullName = false ∨ truthy s.phoneNumber = false ∨
      truthy s.emailAddress = false ∨ truthy s.membershipStartDate = false ∨
      truthy s.nextPaymentDate = false ∨ truthy s.paymentStatus = false) :
    (handleSubmit env now creatingUser editingItem s).state.formError =
      "All fields are required. Please fill in all fields." ∧
    (handleSubmit env now creatingUser editingItem s).calls = [] ∧
    (handleSubmit env now creatingUser editingItem s).state.toDraft = s.toDraft ∧
    (handleSubmit env now creatingUser editingItem s).timers = [3000] ∧
    (handleSubmit env now creatingUser editingItem s).threw = false := by
  have hg : (!truthy s.fullName || !truthy s.phoneNumber || !truthy s.emailAddress ||
      !truthy s.membershipStartDate || !truthy s.nextPaymentDate || !truthy s.paymentStatus) =
      true := by
    rcases h with h | h | h | h | h | h <;> simp [h]
  unfold handleSubmit
  rw [hg]
  simp [requiredMessage]

/-- Witness of C2: a form whose full name is empty, submitted in Edit mode. -/
theorem C2_submit_with_empty_field_witness :
    truthy ({ sampleForm with fullName := some "" } : FormState).fullName = false ∧
    (handleSubmit utcEnv 1718452800000 false (some sampleItem)
      { sampleForm with fullName := some "" }).calls = [] :=
  ⟨by decide,
    (C2_submit_with_empty_field utcEnv 1718452800000 false (some sampleItem)
      { sampleForm with fullName := some "" } (Or.inl (by decide))).2.1⟩

/-- C3. A submit of a filled form in Edit mode calls exactly three callbacks, in this
order: `onUpdate` with a record whose six fields are the six fields of the form and whose
`_id` is the `_id` of the source record, then `onSuccess`, then `onCancel`; `onCreate` is not
called and the run ends without an exception. -/
theorem C3_submit_in_edit_mode (env : JsEnv) (now : Int) (item : Member) (s : FormState)
    (h : filled s) :
    (∃ record : Member, record.toDraft = s.toDraft ∧ record._id = item._id ∧
      (handleSubmit env now false (some item) s).calls =
        [Call.onUpdate record, Call.onSuccess, Call.onCancel]) ∧
    (handleSubmit env now false (some item) s).calls.length = 3 ∧
    (∀ record : Draft, Call.onCreate record ∉ (handleSubmit env now false (some item) s).calls) ∧
    (handleSubmit env now false (some item) s).threw = false := by
  rw [handleSubmit_edit_calls env now item s h]
  refine ⟨⟨{ s.toDraft with _id := item._id }, rfl, rfl, rfl⟩, rfl, ?_, rfl⟩
  intro record hmem
  simp at hmem

/-- Witness of C3: the sample form submitted for the sample record. -/
theorem C3_submit_in_edit_mode_witness :
    filled sampleForm ∧
    (handleSubmit utcEnv 1718452800000 false (some sampleItem) sampleForm).calls.length = 3 :=
  ⟨by decide, (C3_submit_in_edit_mode utcEnv 1718452800000 sampleItem sampleForm (by decide)).2.1⟩

/-- C4. A submit of a filled form in Create mode calls `onCreate` first, with the record
made of the six fields of the form (a `Draft` has no `_id`), calls `onSuccess` right after it,
and does not call `onUpdate`. -/
theorem C4_submit_in_create_mode (env : JsEnv) (now : Int) (editingItem : Option Member)
    (s : FormState) (h : filled s) :
    (∃ rest : List Call,
      (handleSubmit env now true editingItem s).calls =
        Call.onCreate s.toDraft :: Call.onSuccess :: rest) ∧
    (∀ record : Member,
      Call.onUpdate record ∉ (handleSubmit env now true editingItem s).calls) ∧
    (handleSubmit env now true editingItem s).threw = false := by
  rw [handleSubmit_create_calls env now editingItem s h]
  refine ⟨⟨_, rfl⟩, ?_, rfl⟩
  intro record hmem
  simp at hmem

/-- Witness of C4: the sample form submitted in Create mode. -/
theorem C4_submit_in_create_mode_witness :
    filled sampleForm ∧
    ∃ rest : List Call,
      (handleSubmit utcEnv 1718452800000 true none sampleForm).calls =
        Call.onCreate sampleForm.toDraft :: Call.onSuccess :: rest :=
  ⟨by decide, (C4_submit_in_create_mode utcEnv 1718452800000 none sampleForm (by decide)).1⟩

/-- Counterexample to C5: the sample form, submitted in Create mode, calls `onCancel`. -/
theorem C5_create_calls_onCancel :
    filled sampleForm ∧
    Call.onCancel ∈ (handleSubmit utcEnv 1718452800000 true none sampleForm).calls := by
  refine ⟨by decide, ?_⟩
  rw [handleSubmit_create_calls utcEnv 1718452800000 none sampleForm (by decide)]
  simp

/-- C5, amended. A submit of a filled form calls `onCancel` exactly once, as its last
callback, in Create mode as in Edit mode. -/
theorem C5_submit_calls_onCancel (env : JsEnv) (now : Int) (editingItem : Option Member)
    (item : Member) (s : FormState) (h : filled s) :
    (handleSubmit env now true editingItem s).calls.count Call.onCancel = 1 ∧
    (handleSubmit env now true editingItem s).calls.getLast? = some Call.onCancel ∧
    (handleSubmit env now false (some item) s).calls.count Call.onCancel = 1 ∧
    (handleSubmit env now false (some item) s).calls.getLast? = some Call.onCancel := by
  rw [handleSubmit_create_calls env now editingItem s h, handleSubmit_edit_calls env now item s h]
  refine ⟨?_, rfl, ?_, rfl⟩
  · simp [List.count_cons]
  · simp [List.count_cons]

/-- Witness of C5, amended: the sample form in both modes. -/
theorem C5_submit_calls_onCancel_witness :
    filled sampleForm ∧
    (handleSubmit utcEnv 1718452800000 true none sampleForm).calls.count Call.onCancel = 1 ∧
    (handleSubmit utcEnv 1718452800000 false (some sampleItem) sampleForm).calls.count
      Call.onCancel = 1 :=
  ⟨by decide,
    (C5_submit_calls_onCancel utcEnv 1718452800000 none sampleItem sampleForm (by decide)).1,
    (C5_submit_calls_onCancel utcEnv 1718452800000 none sampleItem sampleForm (by decide)).2.2.1⟩

/-- Counterexample to C10: the sample form, submitted in Edit mode for the sample record, calls
`onSuccess` once, not twice. -/
theorem C10_edit_calls_onSuccess_once :
    filled sampleForm ∧
    (handleSubmit utcEnv 1718452800000 false (some sampleItem) sampleForm).calls.count
      Call.onSuccess = 1 ∧
    (handleSubmit utcEnv 1718452800000 false (some sampleItem) sampleForm).calls.count
      Call.onSuccess ≠ 2 := by
  refine ⟨by decide, ?_⟩
  rw [handleSubmit_edit_calls utcEnv 1718452800000 sampleItem sampleForm (by decide)]
  simp [List.count_cons]

/-- C10, amended. A submit of a filled form calls `onSuccess` exactly twice in Create mode
and exactly once in Edit mode. -/
theorem C10_submit_calls_onSuccess (env : JsEnv) (now : Int) (editingItem : Option Member)
    (item : Member) (s : FormState) (h : filled s) :
    (handleSubmit env now true editingItem s).calls.count Call.onSuccess = 2 ∧
    (handleSubmit env now false (some item) s).calls.count Call.onSuccess = 1 := by
  rw [handleSubmit_create_calls env now editingItem s h, handleSubmit_edit_calls env now item s h]
  constructor
  · simp [List.count_cons]
  · simp [List.count_cons]

/-- Witness of C10, amended: the sample form in both modes. -/
theorem C10_submit_calls_onSuccess_witness :
    filled sampleForm ∧
    (handleSubmit utcEnv 1718452800000 true none sampleForm).calls.count Call.onSuccess = 2 ∧
    (handleSubmit utcEnv 1718452800000 false (some sampleItem) sampleForm).calls.count
      Call.onSuccess = 1 :=
  ⟨by decide,
    C10_submit_calls_onSuccess utcEnv 1718452800000 none sampleItem sampleForm (by decide)⟩

/-- C9. The table body has one row for each record, in the order of the records: row `i` is
the rendering of record `i`, its seven cells show the six fields of that record and its
actions, and its class is `bg-green-100` exactly when the `paymentStatus` of the record is the
string "active" and `bg-red-100` for every other value, a missing one included. -/
theorem C9_table_rows (data : List Member) :
    (tableRows data).length = data.length ∧
    ∀ (i : Nat) (user : Member), data[i]? = some user →
      ∃ row : Row, (tableRows data)[i]? = some row ∧ row = renderRow user i ∧
        row.cells = [Cell.text user.fullName, Cell.text user.phoneNumber,
          Cell.text user.emailAddress, Cell.text user.membershipStartDate,
          Cell.text user.nextPaymentDate, Cell.text user.paymentStatus, Cell.actions user] ∧
        (row.className = "bg-green-100" ↔ user.paymentStatus = some "active") ∧
        (row.className = "bg-red-100" ↔ user.paymentStatus ≠ some "active") := by
  constructor
  · simp [tableRows]
  · intro i user hi
    refine ⟨renderRow user i, ?_, rfl, rfl, ?_, ?_⟩
    · simp [tableRows, List.getElem?_enum, hi]
    · unfold renderRow
      by_cases h : user.paymentStatus = some "active"
      · simp [h]
      · simp [h]
    · unfold renderRow
      by_cases h : user.paymentStatus = some "active"
      · simp [h]
      · simp [h]

/-- Counterexample to C6: opened in the UTC zone at noon of 2024-01-31, the editor gets the
membership start date 2024-01-31 and the next payment date 2024-03-02, which is not the 31st
of the following month. -/
theorem C6_month_end_overflow :
    localDate utcEnv 1706702400000 = (2024, 1, 31) ∧
    (initEffect utcEnv 1706702400000 none initialState).membershipStartDate =
      some "2024-01-31" ∧
    (initEffect utcEnv 1706702400000 none initialState).nextPaymentDate = some "2024-03-02" ∧
    isoDate (sameDayNextMonth (localDate utcEnv 1706702400000)) = "2024-02-31" ∧
    (initEffect utcEnv 1706702400000 none initialState).nextPaymentDate ≠
      some (isoDate (sameDayNextMonth (localDate utcEnv 1706702400000))) := by
  decide

/-- The dates are printed in UTC.  Five hours west of UTC, at 20:00 local time of
2024-04-30 (01:00 UTC of 2024-05-01), the membership start date is 2024-05-01, not the local
date, and the next payment date is 2024-05-31, the UTC date of local 2024-05-30 20:00. -/
theorem initEffect_west_of_utc :
    localDate westEnv 1714525200000 = (2024, 4, 30) ∧
    (initEffect westEnv 1714525200000 none initialState).membershipStartDate =
      some "2024-05-01" ∧
    (initEffect westEnv 1714525200000 none initialState).nextPaymentDate = some "2024-05-31" := by
  decide

/-- Two zones that change their offset.  On central European time at 01:30 local time of
2024-03-15 the local time set is 01:30 of 2024-04-15, in summer time, which is 23:30 UTC of
2024-04-14, and the next payment date is 2024-04-14.  On the eastern time of North America at
19:30 local time of 2024-02-15 the local time set is 19:30 of 2024-03-15, in summer time,
which is 23:30 UTC of the same day, and the next payment date is 2024-03-15. -/
theorem initEffect_daylight_saving :
    localDate berlinEnv 1710462600000 = (2024, 3, 15) ∧
    (initEffect berlinEnv 1710462600000 none initialState).nextPaymentDate =
      some "2024-04-14" ∧
    localDate newYorkEnv 1708043400000 = (2024, 2, 15) ∧
    (initEffect newYorkEnv 1708043400000 none initialState).nextPaymentDate =
      some "2024-03-15" := by
  decide

/-- C6, amended. Opening the editor in Create mode at any instant, in any zone, gives an
empty full name, phone number and email address.  When the instant lies on the same calendar
date in UTC and in local time, the membership start date is the local date of today.  When
the local time that `setMonth` sets (the same time of day, one local month length after now)
lies on the same calendar date in UTC, the next payment date is the local date of today
carried to the following month: the same day of the month in the following month when that
month has this day, and otherwise as many days into the month after. -/
theorem C6_create_defaults (env : JsEnv) (now : Int) (s : FormState) :
    (initEffect env now none s).fullName = some "" ∧
    (initEffect env now none s).phoneNumber = some "" ∧
    (initEffect env now none s).emailAddress = some "" ∧
    (day now = day (localTime env now) →
      (initEffect env now none s).membershipStartDate = some (isoDate (localDate env now))) ∧
    (day (utc env (nextMonthLocal env now)) = day (nextMonthLocal env now) →
      (initEffect env now none s).nextPaymentDate =
        some (isoDate (carryNextMonth (localDate env now))) ∧
      ((localDate env now).2.2 ≤ daysInMonth ((sameDayNextMonth (localDate env now)).2.1 - 1)
          (leapOfYear (sameDayNextMonth (localDate env now)).1) →
        (initEffect env now none s).nextPaymentDate =
          some (isoDate (sameDayNextMonth (localDate env now))))) := by
  have hf := initEffect_create_fields env now s
  refine ⟨hf.1, hf.2.1, hf.2.2.1, ?_, ?_⟩
  · intro hday
    rw [hf.2.2.2.1]
    unfold localDate utcDate
    rw [hday]
  · intro hday
    have hnext : (initEffect env now none s).nextPaymentDate =
        some (isoDate (carryNextMonth (localDate env now))) := by
      rw [hf.2.2.2.2, ← utcDate_nextMonthLocal]
      unfold utcDate
      rw [hday]
    refine ⟨hnext, ?_⟩
    intro hex
    rw [hnext]
    unfold localDate at hex ⊢
    rw [← utcDate_of_day (localTime env now)] at hex ⊢
    rw [carryNextMonth_eq_sameDay _ hex]

/-- Witness of C6, amended: in the UTC zone at noon of 2024-06-15 the three conditions hold,
the membership start date is 2024-06-15 and the next payment date is 2024-07-15. -/
theorem C6_create_defaults_witness :
    day 1718452800000 = day (localTime utcEnv 1718452800000) ∧
    day (utc utcEnv (nextMonthLocal utcEnv 1718452800000)) =
      day (nextMonthLocal utcEnv 1718452800000) ∧
    (localDate utcEnv 1718452800000).2.2 ≤
      daysInMonth ((sameDayNextMonth (localDate utcEnv 1718452800000)).2.1 - 1)
        (leapOfYear (sameDayNextMonth (localDate utcEnv 1718452800000)).1) ∧
    isoDate (localDate utcEnv 1718452800000) = "2024-06-15" ∧
    isoDate (sameDayNextMonth (localDate utcEnv 1718452800000)) = "2024-07-15" ∧
    (initEffect utcEnv 1718452800000 none initialState).membershipStartDate =
      some (isoDate (localDate utcEnv 1718452800000)) ∧
    (initEffect utcEnv 1718452800000 none initialState).nextPaymentDate =
      some (isoDate (sameDayNextMonth (localDate utcEnv 1718452800000))) :=
  ⟨by decide, by decide, by decide, by decide, by decide,
    (C6_create_defaults utcEnv 1718452800000 initialState).2.2.2.1 (by decide),
    ((C6_create_defaults utcEnv 1718452800000 initialState).2.2.2.2 (by decide)).2 (by decide)⟩

/-- C7. At every instant of the years 0 to 9998 (UTC) and in every zone, the status that
opening the editor in Create mode computes is "active": the default next payment date parses
to a time value whose local midnight is strictly after the local midnight of today, and the
effect on `nextPaymentDate`, run on the draft of Create mode, gives "active" as well. -/
theorem C7_create_status_active (env : JsEnv) (now : Int) (s : FormState)
    (hy0 : 0 ≤ yearFromDay (day now)) (hy1 : yearFromDay (day now) ≤ 9998) :
    (initEffect env now none s).paymentStatus = some "active" ∧
    (∃ t, newDate env (initEffect env now none s).nextPaymentDate = some t ∧
      setHours0 env now < setHours0 env t) ∧
    (statusEffect env now (initEffect env now none s)).paymentStatus = some "active" := by
  obtain ⟨k, hk1, hk2, hp⟩ := initEffect_create_parsed env now s hy0 hy1
  have hlt : setHours0 env now < setHours0 env ((day now + k) * msPerDay) := by
    unfold setHours0 utc localTime
    have h1 := env.tza_bound now
    have h2 := env.tzaLocal_bound (day (now + env.tza now) * msPerDay + 0)
    have h3 := env.tza_bound ((day now + k) * msPerDay)
    have h4 := env.tzaLocal_bound
      (day ((day now + k) * msPerDay + env.tza ((day now + k) * msPerDay)) * msPerDay + 0)
    generalize env.tzaLocal
      (day ((day now + k) * msPerDay + env.tza ((day now + k) * msPerDay)) * msPerDay + 0) =
      e4 at *
    generalize env.tza ((day now + k) * msPerDay) = e3 at *
    generalize env.tzaLocal (day (now + env.tza now) * msPerDay + 0) = e2 at *
    generalize env.tza now = e1 at *
    unfold day at *
    unfold msPerDay at *
    omega
  have hle : dateLE ((newDate env (initEffect env now none s).nextPaymentDate).map
      (setHours0 env)) (some (setHours0 env now)) = false := by
    rw [hp]
    simp only [Option.map_some', dateLE, decide_eq_false_iff_not, not_le]
    exact hlt
  refine ⟨?_, ⟨_, hp, hlt⟩, ?_⟩
  · have hst : (initEffect env now none s).paymentStatus =
        some (if dateLE ((newDate env (initEffect env now none s).nextPaymentDate).map
          (setHours0 env)) (some (setHours0 env now)) = true then "inactive" else "active") := by
      unfold initEffect
      simp only
    rw [hst, hle]
    simp
  · unfold statusEffect
    simp only [hle, Bool.and_false]
    simp

/-- Witness of C7: noon UTC of 2024-06-15 lies in the year 2024. -/
theorem C7_create_status_active_witness :
    0 ≤ yearFromDay (day 1718452800000) ∧ yearFromDay (day 1718452800000) ≤ 9998 ∧
    (initEffect utcEnv 1718452800000 none initialState).paymentStatus = some "active" :=
  ⟨by decide, by decide,
    (C7_create_status_active utcEnv 1718452800000 initialState (by decide) (by decide)).1⟩

/-- C8, the code at the failing input. After the sample form is submitted in Create mode at
noon UTC of 2024-06-15, the state is the one `resetForm` leaves: five fields are those of
opening the editor in Create mode at that instant, and `paymentStatus` is the empty string
where opening the editor gives "active"; `nextPaymentDate` is the
one the form had, so the effect on it has no change to react to; a second submit of that state
stops at the validation and calls nothing.  With the three text fields filled in again the
submit still stops at the validation, where the same form with the status "active" is
submitted. -/
theorem C8_resetForm_leaves_status_empty :
    filled sampleForm ∧
    (handleSubmit utcEnv 1718452800000 true none sampleForm).state =
      resetForm utcEnv 1718452800000 sampleForm ∧
    (resetForm utcEnv 1718452800000 sampleForm).paymentStatus = some "" ∧
    (resetForm utcEnv 1718452800000 sampleForm).nextPaymentDate = sampleForm.nextPaymentDate ∧
    (initEffect utcEnv 1718452800000 none sampleForm).paymentStatus = some "active" ∧
    { (resetForm utcEnv 1718452800000 sampleForm) with paymentStatus := some "active" } =
      initEffect utcEnv 1718452800000 none sampleForm ∧
    (handleSubmit utcEnv 1718452800000 true none
      (resetForm utcEnv 1718452800000 sampleForm)).calls = [] ∧
    (handleSubmit utcEnv 1718452800000 true none
      { (resetForm utcEnv 1718452800000 sampleForm) with
        fullName := some "Grace Hopper", phoneNumber := some "0697654321",
        emailAddress := some "grace@example.com" }).calls = [] ∧
    (handleSubmit utcEnv 1718452800000 true none
      { (resetForm utcEnv 1718452800000 sampleForm) with
        fullName := some "Grace Hopper", phoneNumber := some "0697654321",
        emailAddress := some "grace@example.com" }).state.formError =
      "All fields are required. Please fill in all fields." ∧
    (handleSubmit utcEnv 1718452800000 true none
      { (resetForm utcEnv 1718452800000 sampleForm) with
        fullName := some "Grace Hopper", phoneNumber := some "0697654321",
        emailAddress := some "grace@example.com", paymentStatus := some "active" }).calls ≠
      [] := by
  decide

/-- The draft of `resetForm` next to the draft of Create mode, at every instant: the same
five fields, and the empty string as `paymentStatus`. -/
theorem resetForm_fields (env : JsEnv) (now : Int) (s : FormState) :
    (resetForm env now s).fullName = (initEffect env now none s).fullName ∧
    (resetForm env now s).phoneNumber = (initEffect env now none s).phoneNumber ∧
    (resetForm env now s).emailAddress = (initEffect env now none s).emailAddress ∧
    (resetForm env now s).membershipStartDate =
      (initEffect env now none s).membershipStartDate ∧
    (resetForm env now s).nextPaymentDate = (initEffect env now none s).nextPaymentDate ∧
    (resetForm env now s).paymentStatus = some "" :=
  ⟨rfl, rfl, rfl, rfl, rfl, rfl⟩
